import Mathlib

/-!
Verification of the incremental data-acquisition pipeline (`pipeline.py`) of
the homework-4 repository.  The definitions below are a shallow embedding of
the pipeline's three filters and their orchestration; the theorems settle the
spec's testable properties against them.

Modelling conventions:
* A `YYYY-MM-DD` date string produced by `strftime` from an epoch-seconds
  timestamp is represented by its UTC day index `timestamp / 86400`; the
  string rendering is injective on day indices, so string equality coincides
  with day-index equality.
* Python floats parsed from the API's decimal strings are modelled as `Rat`.
* The file system is a map from file key (symbol) to optional file content;
  a `.jsonl` file's content is its list of lines.
* Network calls are parameters: an exchange is a function from the request's
  symbol and `startTime` to `Except` (an `.error` models a raised exception).
-/

namespace Pipeline

set_option maxRecDepth 8000

/-- One OHLCV candle record as normalized by `_download_symbol_data`
(pipeline.py lines 412-422).  `timestamp` is epoch seconds
(`kline[0] // 1000`); `date` is the UTC day index of `timestamp` (the model
of the `strftime('%Y-%m-%d')` string).  The Python field `open` is
`openPrice` here because `open` is a Lean keyword. -/
structure Record where
  symbol : String
  timestamp : Nat
  date : Nat
  openPrice : Rat
  high : Rat
  low : Rat
  close : Rat
  volume : Rat
  number_of_trades : Nat
deriving DecidableEq, Repr

/-- One line of a per-symbol `.jsonl` log: either the `json.dumps` encoding of
a candle record (`Line.record`) or text on which `json.loads` raises
(`Line.raw`). -/
inductive Line where
  | record (r : Record)
  | raw (s : String)
deriving DecidableEq, Repr

/-- `json.loads` on one log line, returning the candle record it encodes.
(A pipeline-written line always encodes a full record with a `date` field.) -/
def parseLine : Line → Option Record
  | .record r => some r
  | .raw _ => none

/-- The file system seen by the pipeline: per-symbol log content keyed by
ticker (`none` when the file does not exist). -/
def FS := String → Option (List Line)

/-- Gap metadata produced by `filter_2_check_data_gaps` for one symbol
(pipeline.py lines 266-294). -/
structure GapMeta where
  last_available_date : Option Nat
  requires_full_download : Bool
  file_exists : Bool
deriving DecidableEq, Repr

/-- The per-symbol body of FILTER 2 (pipeline.py lines 256-294).  The file's
last line is found by iterating the file; an empty file leaves `last_line`
falsy.  A `json.loads` failure on the last line lands in the `except` branch
(lines 281-287), which reports `file_exists := false` even though the file
exists. -/
def filter_2_check_symbol (content : Option (List Line)) : GapMeta :=
  match content with
  | none =>
    { last_available_date := none, requires_full_download := true, file_exists := false }
  | some lines =>
    match lines.getLast? with
    | none =>
      { last_available_date := none, requires_full_download := true, file_exists := true }
    | some l =>
      match parseLine l with
      | some r =>
        { last_available_date := some r.date, requires_full_download := false,
          file_exists := true }
      | none =>
        { last_available_date := none, requires_full_download := true, file_exists := false }

/-- FILTER 2 (pipeline.py lines 231-300): gap analysis for every symbol,
returning the `symbol_date_map` as an association list (a Python dict keyed
by symbol; a repeated symbol recomputes the identical entry, so first-match
lookup agrees with the dict). -/
def filter_2_check_data_gaps (symbols : List String) (fs : FS) : List (String × GapMeta) :=
  symbols.map fun s => (s, filter_2_check_symbol (fs s))

/-- The fields the pipeline reads from one raw kline array entry of the
`/klines` endpoint: `kline[0]` (open time, milliseconds), `kline[1..4]`
(OHLC), `kline[7]` (quote asset volume), `kline[8]` (number of trades). -/
structure Kline where
  openTime : Nat
  openPrice : Rat
  high : Rat
  low : Rat
  close : Rat
  quoteVolume : Rat
  trades : Nat
deriving DecidableEq, Repr

/-- An exchange's `/klines` endpoint: symbol and `startTime` (milliseconds)
to a page of klines; `.error` models `api_request` raising. -/
def Exchange := String → Nat → Except String (List Kline)

/-- The normalization of one kline into a stored record
(pipeline.py lines 412-422). -/
def recordOfKline (symbol : String) (k : Kline) : Record :=
  { symbol := symbol
    timestamp := k.openTime / 1000
    date := k.openTime / 1000 / 86400
    openPrice := k.openPrice
    high := k.high
    low := k.low
    close := k.close
    volume := k.quoteVolume
    number_of_trades := k.trades }

/-- The paging loop of `_download_symbol_data` (pipeline.py lines 396-433).
`current` and `endTime` are epoch seconds (the source holds `datetime` values
and multiplies by 1000 when building the request).  After a page, the next
start is one day past the last candle's open time.  An exception from
`api_request` is caught inside the loop and turns into `break`, so the loop
never propagates an exception.  `fuel` bounds the number of iterations
observed (the source loop has no such bound); the theorems below hold for
every fuel value. -/
def downloadLoop (exchange : Exchange) (symbol : String) (endTime : Nat) :
    Nat → Nat → List Record
  | 0, _ => []
  | fuel + 1, current =>
    if current ≤ endTime then
      match exchange symbol (current * 1000) with
      | .error _ => []
      | .ok [] => []
      | .ok (k :: ks) =>
        ((k :: ks).map (recordOfKline symbol)) ++
          downloadLoop exchange symbol endTime fuel
            (((k :: ks).getLast (List.cons_ne_nil k ks)).openTime / 1000 + 86400)
    else []

/-- `_download_symbol_data` (pipeline.py lines 380-435): page daily candles
from `startTime` (epoch seconds) to `now`, normalizing each kline.  The
Python name starts with an underscore, which Lean does not allow. -/
def download_symbol_data (exchange : Exchange) (symbol : String)
    (startTime now fuel : Nat) : List Record :=
  downloadLoop exchange symbol now fuel startTime

/-- The `existing_dates` scan of `_store_symbol_data` (pipeline.py lines
451-458): read the file line by line collecting `record['date']`; a
`json.loads` failure aborts the scan (`except: pass`), keeping the dates
collected so far. -/
def collectDates : List Line → List Nat
  | [] => []
  | .record r :: rest => r.date :: collectDates rest
  | .raw _ :: _ => []

/-- `_store_symbol_data` (pipeline.py lines 438-472) acting on the content of
the one file it touches.  With `file_exists = true` it appends the records
whose date is not already present (the append is a no-op when none remain);
with `file_exists = false` it writes all records as a fresh file (mode 'w',
truncating whatever content was there).  The caller guarantees `records` is
nonempty and that `file_exists = true` only when the file is present. -/
def store_symbol_data (records : List Record) (file_exists : Bool)
    (content : Option (List Line)) : List Line :=
  if file_exists then
    let existing_dates := collectDates (content.getD [])
    let new_records := records.filter fun r => r.date ∉ existing_dates
    content.getD [] ++ new_records.map Line.record
  else
    records.map Line.record

/-- The tail of FILTER 3's per-symbol body once the start date is known
(pipeline.py lines 351-358): download from `start_date`, and store only when
the download returned records (`if records:`). -/
def filter_3_fetch_and_store (exchange : Exchange) (now fuel : Nat) (symbol : String)
    (start_date : Nat) (file_exists : Bool) (content : Option (List Line)) :
    Option (List Line) :=
  let records := download_symbol_data exchange symbol start_date now fuel
  if records.isEmpty then content
  else some (store_symbol_data records file_exists content)

/-- The body of the per-symbol `try` block of `filter_3_download_data`
(pipeline.py lines 332-362), acting on the one file belonging to `symbol`.
An `.error` is an exception escaping to the stage's handler; the raising
sites are the `symbol_date_map[symbol]` lookup (`KeyError`) and `strptime`
on a missing date string.  `_download_symbol_data` never raises (it catches
its own errors and breaks), and file writes are modelled as succeeding. -/
def filter_3_process_symbol (exchange : Exchange) (now fuel : Nat)
    (symbol_date_map : List (String × GapMeta)) (symbol : String)
    (content : Option (List Line)) : Except String (Option (List Line)) :=
  match symbol_date_map.lookup symbol with
  | none => .error ("Symbol " ++ symbol ++ ": KeyError")
  | some date_meta =>
    if date_meta.requires_full_download then
      .ok (filter_3_fetch_and_store exchange now fuel symbol (now - 3650 * 86400)
            date_meta.file_exists content)
    else
      match date_meta.last_available_date with
      | some d =>
        .ok (filter_3_fetch_and_store exchange now fuel symbol ((d + 1) * 86400)
              date_meta.file_exists content)
      | none => .error ("Symbol " ++ symbol ++ ": strptime argument error")

/-- FILTER 3 (pipeline.py lines 307-377): strictly sequential per-symbol
download and merge over the file system.  Returns the updated file system and
the accumulated `errors` list; an exception while processing one symbol is
appended to `errors` and the loop continues with the next symbol. -/
def filter_3_download_data (exchange : Exchange) (now fuel : Nat)
    (symbols : List String) (symbol_date_map : List (String × GapMeta))
    (fs : FS) : FS × List String :=
  symbols.foldl
    (fun st symbol =>
      match filter_3_process_symbol exchange now fuel symbol_date_map symbol (st.1 symbol) with
      | .ok newContent => (fun s => if s = symbol then newContent else st.1 s, st.2)
      | .error e => (st.1, st.2 ++ [e]))
    (fs, [])

/-- One pipeline run as observed by a single symbol's log file: FILTER 2's gap
check on the current content followed by FILTER 3's per-symbol body (stage 1
only chooses which symbols run; it never touches log files).  An exception
leaves the file unchanged (the stage records the error and moves on). -/
def runSymbolOnce (exchange : Exchange) (symbol : String) (now fuel : Nat)
    (content : Option (List Line)) : Option (List Line) :=
  match filter_3_process_symbol exchange now fuel
      [(symbol, filter_2_check_symbol content)] symbol content with
  | .ok c => c
  | .error _ => content

/-- The varying inputs of one pipeline run, as seen by stage 3: the exchange's
responses, the run's `utcnow` (epoch seconds) and the observation fuel. -/
structure RunEnv where
  exchange : Exchange
  now : Nat
  fuel : Nat

/-- Any number of successive pipeline runs applied to one symbol's log. -/
def runSymbol (symbol : String) (content : Option (List Line)) (envs : List RunEnv) :
    Option (List Line) :=
  envs.foldl (fun c e => runSymbolOnce e.exchange symbol e.now e.fuel c) content

/-- The dates of the records stored in a log, in file order. -/
def logDates (lines : List Line) : List Nat :=
  lines.filterMap fun l => (parseLine l).map (·.date)

/-- Every line of the log parses as a candle record (true of any log the
pipeline itself wrote, since it only ever writes `json.dumps` of records). -/
def allRecords (lines : List Line) : Bool :=
  lines.all fun l => (parseLine l).isSome

/-- The documented upstream contract of the `/klines` endpoint for daily
candles: each page returned for a request at `startTime` (milliseconds) holds
candles whose UTC days are strictly increasing and no earlier than the
requested day.  Real daily klines (open times spaced 86400000 ms, at or after
`startTime`) satisfy this. -/
def WellBehavedExchange (exchange : Exchange) : Prop :=
  ∀ symbol t page, exchange symbol t = .ok page →
    (page.map fun k => k.openTime / 1000 / 86400).Chain' (· < ·) ∧
    ∀ k ∈ page, t / 1000 / 86400 ≤ k.openTime / 1000 / 86400

/-- The invariant of pipeline-written logs: every line parses, and the stored
dates strictly increase from first line to last. -/
def goodLog : Option (List Line) → Prop
  | none => True
  | some lines => allRecords lines = true ∧ (logDates lines).Chain' (· < ·)

/-- Quote currencies accepted by FILTER 1 (pipeline.py line 56). -/
def ACCEPTED_QUOTE_CURRENCIES : List String := ["USDT", "BUSD", "USDC"]

/-- Size of the kept symbol universe (pipeline.py line 57). -/
def TOP_N_SYMBOLS : Nat := 100

/-- The fields FILTER 1 reads from one entry of `exchange_info['symbols']`.
The source uses `.get('quoteAsset', '')` and `.get('status')`: an absent
`quoteAsset` behaves as the empty string and an absent `status` compares
unequal to "TRADING", so plain `String` fields with those sentinel values
model the `.get` defaults. -/
structure ExchangeSymbol where
  symbol : String
  baseAsset : String
  quoteAsset : String
  status : String
deriving DecidableEq, Repr

/-- The fields FILTER 1 reads from one `/ticker/24hr` entry.
`lastPrice := none` models an entry whose `lastPrice` is absent (Python then
computes `float(0) = 0.0 ≤ 0`) or fails `float()` (ValueError) — both paths
exclude the symbol, exactly as `none` does below.  `quoteAssetVolume` is
assumed numeric: a non-numeric volume would abort the whole stage. -/
structure Ticker where
  symbol : String
  lastPrice : Option Rat
  quoteAssetVolume : Rat
deriving DecidableEq, Repr

/-- One element of `symbols_data` (pipeline.py lines 191-198). -/
structure SymbolData where
  symbol : String
  base_asset : String
  quote_asset : String
  volume_24h_usdt : Rat
  last_price : Rat
  validation_timestamp : String
deriving DecidableEq, Repr

/-- The metadata dictionary emitted by FILTER 1 (pipeline.py lines 208-213). -/
structure Metadata where
  total_symbols_extracted : Nat
  total_symbols_excluded : Nat
  timestamp : String
  symbols : List SymbolData
deriving DecidableEq, Repr

/-- `ticker_dict = {item['symbol']: item for item in ticker_24h}`
(pipeline.py line 151): a dict comprehension keeps the last entry for a
repeated key. -/
def ticker_dict (ticker_24h : List Ticker) (s : String) : Option Ticker :=
  (ticker_24h.filter fun t => t.symbol = s).getLast?

/-- The per-symbol validation body of FILTER 1 (pipeline.py lines 157-198).
`none` means the symbol was skipped: silently when it has no ticker entry,
via `excluded_count` otherwise.  `nowIso` stands for
`datetime.utcnow().isoformat()`. -/
def validate_symbol (ticker_24h : List Ticker) (nowIso : String)
    (symbol_obj : ExchangeSymbol) : Option SymbolData :=
  match ticker_dict ticker_24h symbol_obj.symbol with
  | none => none
  | some ticker =>
    if symbol_obj.quoteAsset ∈ ACCEPTED_QUOTE_CURRENCIES then
      if symbol_obj.status = "TRADING" then
        match ticker.lastPrice with
        | none => none
        | some last_price =>
          if last_price ≤ 0 then none
          else
            some { symbol := symbol_obj.symbol
                   base_asset := symbol_obj.baseAsset
                   quote_asset := symbol_obj.quoteAsset
                   volume_24h_usdt := ticker.quoteAssetVolume
                   last_price := last_price
                   validation_timestamp := nowIso }
      else none
    else none

/-- The `excluded_count` counter of FILTER 1: symbols that have a ticker
entry but fail one of the three validation rules. -/
def excluded_count (ticker_24h : List Ticker) (nowIso : String)
    (exchange_info : List ExchangeSymbol) : Nat :=
  (exchange_info.filter fun so =>
    (ticker_dict ticker_24h so.symbol).isSome &&
      (validate_symbol ticker_24h nowIso so).isNone).length

/-- FILTER 1 (pipeline.py lines 120-224) applied to given `/exchangeInfo` and
`/ticker/24hr` responses.  The Python `symbols_data.sort(key=volume,
reverse=True)` is a stable descending sort, which `mergeSort` with
`le a b := b.volume ≤ a.volume` reproduces (ties keep their original order in
both).  Returns `(clean_symbols, metadata)`. -/
def filter_1_acquire_symbols (exchange_info : List ExchangeSymbol)
    (ticker_24h : List Ticker) (nowIso : String) : List String × Metadata :=
  let symbols_data := exchange_info.filterMap (validate_symbol ticker_24h nowIso)
  let sorted := symbols_data.mergeSort
    fun a b => decide (b.volume_24h_usdt ≤ a.volume_24h_usdt)
  let top_symbols := sorted.take TOP_N_SYMBOLS
  let clean_symbols := top_symbols.map (·.symbol)
  (clean_symbols,
    { total_symbols_extracted := clean_symbols.length
      total_symbols_excluded := excluded_count ticker_24h nowIso exchange_info
      timestamp := nowIso
      symbols := top_symbols })

/-- The durable state `run_pipeline` touches: the per-symbol logs and the
`exchange_symbols.json` metadata file. -/
structure PipelineState where
  fs : FS
  symbolsFile : Option Metadata

/-- `run_pipeline` (pipeline.py lines 479-522).  `net1` is the joint outcome
of FILTER 1's two `api_request` calls (`.error` when either raises): the
stage-1 exception is re-raised by `filter_1_acquire_symbols` (lines 222-224)
and again by `run_pipeline`'s handler (lines 520-522), so it surfaces as the
returned `.error` before the metadata file is written and before stages 2 and
3 run.  `full_run` is the source's parameter; its value is never read in the
body. -/
def run_pipeline (full_run : Bool)
    (net1 : Except String (List ExchangeSymbol × List Ticker)) (nowIso : String)
    (exchange : Exchange) (now fuel : Nat) (st : PipelineState) :
    PipelineState × Except String Unit :=
  match net1 with
  | .error e => (st, .error e)
  | .ok (exchange_info, ticker_24h) =>
    let step1 := filter_1_acquire_symbols exchange_info ticker_24h nowIso
    let st1 : PipelineState := { fs := st.fs, symbolsFile := some step1.2 }
    let symbol_date_map := filter_2_check_data_gaps step1.1 st1.fs
    let step3 := filter_3_download_data exchange now fuel step1.1 symbol_date_map st1.fs
    ({ fs := step3.1, symbolsFile := st1.symbolsFile }, .ok ())

/-- A tiny concrete exchange used by concrete witnesses and counterexamples:
it answers a request at time 0 with a single daily candle opening at epoch 0
and every other request with an empty page. -/
def oneCandleExchange : Exchange :=
  fun _ t => if t = 0 then .ok [⟨0, 1, 1, 1, 1, 2, 3⟩] else .ok []

/-- A concrete exchange raising on every request for symbol "S2" and serving
one candle to everyone else, used by the stage-3 failure-isolation scenario. -/
def failS2Exchange : Exchange :=
  fun s _ => if s = "S2" then .error "connection error" else .ok [⟨0, 1, 1, 1, 1, 2, 3⟩]

/-- A synthetic `/exchangeInfo` universe of 101 tradeable USDT-quoted
symbols, for exercising the top-100 ranking on a concrete input. -/
def c8_exchange_info : List ExchangeSymbol :=
  (List.range 101).map fun i => ⟨"S" ++ toString i, "S", "USDT", "TRADING"⟩

/-- Matching 24h tickers for `c8_exchange_info`, with pairwise distinct quote
volumes `0, 1, ..., 100`. -/
def c8_ticker_24h : List Ticker :=
  (List.range 101).map fun i => ⟨"S" ++ toString i, some 1, (i : Rat)⟩

/-!
## Theorems

Helper lemmas first, then one theorem per claim (with witnesses and
counterexamples as required).
-/

/-- A request answered by an empty page stops the paging loop at once, for
any fuel: no records are produced. -/
theorem downloadLoop_eq_nil_of_ok_nil (exchange : Exchange) (symbol : String)
    (endTime fuel current : Nat) (h : exchange symbol (current * 1000) = .ok []) :
    downloadLoop exchange symbol endTime fuel current = [] := by
  cases fuel with
  | zero => rfl
  | succ n => simp [downloadLoop, h]

/-- A request that raises stops the paging loop at once (the exception is
caught and turned into `break`): no records are produced. -/
theorem downloadLoop_eq_nil_of_error (exchange : Exchange) (symbol : String)
    (endTime fuel current : Nat) (e : String)
    (h : exchange symbol (current * 1000) = .error e) :
    downloadLoop exchange symbol endTime fuel current = [] := by
  cases fuel with
  | zero => rfl
  | succ n => simp [downloadLoop, h]

/-- C3, counterexample: for a log whose single line fails to parse as JSON,
`filter_2_check_data_gaps` reports `file_exists = false`, not `true` as the
claim states (the broad `except` branch of pipeline.py lines 281-287 writes
`file_exists: False`). -/
theorem gap_metadata_unparseable_counterexample :
    filter_2_check_symbol (some [Line.raw "not json"]) ≠
      { last_available_date := none, requires_full_download := true,
        file_exists := true } := by
  decide

/-- C3, amended: an existing but empty log yields gap metadata
`(last_available_date = none, requires_full_download = true,
file_exists = true)`; a log whose last line fails to parse yields
`(none, true, file_exists = false)`. -/
theorem gap_metadata_empty_or_unparseable (lines : List Line) :
    (lines = [] →
      filter_2_check_symbol (some lines) =
        { last_available_date := none, requires_full_download := true,
          file_exists := true }) ∧
    (∀ s, lines.getLast? = some (Line.raw s) →
      filter_2_check_symbol (some lines) =
        { last_available_date := none, requires_full_download := true,
          file_exists := false }) := by
  constructor
  · rintro rfl; rfl
  · intro s h
    simp [filter_2_check_symbol, h, parseLine]

/-- Witness for the amended C3 theorem, at an empty log and at a log with one
unparseable line. -/
theorem gap_metadata_empty_or_unparseable_witness :
    filter_2_check_symbol (some ([] : List Line)) =
      { last_available_date := none, requires_full_download := true,
        file_exists := true } ∧
    filter_2_check_symbol (some [Line.raw "oops"]) =
      { last_available_date := none, requires_full_download := true,
        file_exists := false } :=
  ⟨(gap_metadata_empty_or_unparseable []).1 rfl,
   (gap_metadata_empty_or_unparseable [Line.raw "oops"]).2 "oops" rfl⟩

/-- C5: for a symbol whose existing log ends in a record with date `d`, if
the kline request starting at day `d + 1` (midnight UTC, in milliseconds)
returns an empty page, re-running stage 3 leaves the log unchanged — no
records are appended and `_store_symbol_data` is never reached, so the file
is not rewritten. -/
theorem stage3_rerun_no_new_data_unchanged (exchange : Exchange) (symbol : String)
    (now fuel : Nat) (lines : List Line) (r : Record)
    (hlast : lines.getLast? = some (Line.record r))
    (hex : exchange symbol ((r.date + 1) * 86400 * 1000) = .ok []) :
    runSymbolOnce exchange symbol now fuel (some lines) = some lines := by
  have hdl : downloadLoop exchange symbol now fuel ((r.date + 1) * 86400) = [] :=
    downloadLoop_eq_nil_of_ok_nil exchange symbol now fuel ((r.date + 1) * 86400)
      (by rw [Nat.mul_assoc] at hex ⊢; exact hex)
  simp [runSymbolOnce, filter_3_process_symbol, filter_2_check_symbol, hlast, parseLine,
    List.lookup, filter_3_fetch_and_store, download_symbol_data, hdl]

/-- Witness for C5: a one-record log and an exchange with no newer data. -/
theorem stage3_rerun_no_new_data_unchanged_witness :
    runSymbolOnce (fun _ _ => Except.ok []) "BTCUSDT" (4000 * 86400) 3
      (some [Line.record ⟨"BTCUSDT", 0, 0, 1, 1, 1, 1, 2, 3⟩]) =
      some [Line.record ⟨"BTCUSDT", 0, 0, 1, 1, 1, 1, 2, 3⟩] :=
  stage3_rerun_no_new_data_unchanged (fun _ _ => Except.ok []) "BTCUSDT"
    (4000 * 86400) 3 _ _ rfl rfl

/-- C6, counterexample: a pre-existing log whose only line is unparseable is
truncated and rewritten from scratch by the next run (stage 2's `except`
branch reports `file_exists = false`, so stage 3 opens the file in mode 'w'):
the pre-existing content is not preserved as a prefix of the file. -/
theorem preexisting_log_truncated_counterexample :
    ((runSymbolOnce oneCandleExchange "BTCUSDT" (3650 * 86400) 1
        (some [Line.raw "corrupt"])).getD []).take 1 ≠ [Line.raw "corrupt"] := by
  decide

/-- C6, amended: for a pre-existing log that is empty or whose last line
parses as a record, a pipeline run only appends — the old content is a prefix
of the file afterwards.  A log whose last line fails to parse is instead
treated as absent by stage 2 (`file_exists = false`) and rewritten from
scratch by stage 3; only such corrupt logs and logs that did not exist before
the run are written in mode 'w'. -/
theorem preexisting_log_append_only (exchange : Exchange) (symbol : String)
    (now fuel : Nat) (lines : List Line)
    (h : lines = [] ∨ ∃ r, lines.getLast? = some (Line.record r)) :
    ∃ tail, runSymbolOnce exchange symbol now fuel (some lines) = some (lines ++ tail) := by
  rcases h with rfl | ⟨r, hlast⟩
  · by_cases hrec :
      (download_symbol_data exchange symbol (now - 3650 * 86400) now fuel).isEmpty
    · exact ⟨[], by simp [runSymbolOnce, filter_3_process_symbol, filter_2_check_symbol,
        List.lookup, filter_3_fetch_and_store, hrec]⟩
    · refine ⟨((download_symbol_data exchange symbol (now - 3650 * 86400) now fuel).filter
        fun q => q.date ∉ collectDates []).map Line.record, ?_⟩
      simp [runSymbolOnce, filter_3_process_symbol, filter_2_check_symbol,
        List.lookup, filter_3_fetch_and_store, hrec, store_symbol_data]
  · by_cases hrec :
      (download_symbol_data exchange symbol ((r.date + 1) * 86400) now fuel).isEmpty
    · exact ⟨[], by simp [runSymbolOnce, filter_3_process_symbol, filter_2_check_symbol,
        hlast, parseLine, List.lookup, filter_3_fetch_and_store, hrec]⟩
    · refine ⟨((download_symbol_data exchange symbol ((r.date + 1) * 86400) now fuel).filter
        fun q => q.date ∉ collectDates lines).map Line.record, ?_⟩
      simp [runSymbolOnce, filter_3_process_symbol, filter_2_check_symbol,
        hlast, parseLine, List.lookup, filter_3_fetch_and_store, hrec, store_symbol_data]

/-- Witness for the amended C6 theorem: a run over an existing one-record log
extends it in place, preserving the old line as a prefix. -/
theorem preexisting_log_append_only_witness :
    ∃ tail, runSymbolOnce oneCandleExchange "BTCUSDT" (3650 * 86400) 1
      (some [Line.record ⟨"BTCUSDT", 0, 0, 1, 1, 1, 1, 2, 3⟩]) =
      some ([Line.record ⟨"BTCUSDT", 0, 0, 1, 1, 1, 1, 2, 3⟩] ++ tail) :=
  preexisting_log_append_only oneCandleExchange "BTCUSDT" (3650 * 86400) 1
    [Line.record ⟨"BTCUSDT", 0, 0, 1, 1, 1, 1, 2, 3⟩] (Or.inr ⟨_, rfl⟩)

/-- C9: a network or parsing failure in stage 1 surfaces as the run's fatal
error: `run_pipeline` re-raises it, the metadata file is not written, no log
is touched, and stages 2 and 3 never run — the returned state is exactly the
input state. -/
theorem stage1_failure_is_fatal (full_run : Bool) (e : String) (nowIso : String)
    (exchange : Exchange) (now fuel : Nat) (st : PipelineState) :
    run_pipeline full_run (.error e) nowIso exchange now fuel st = (st, .error e) :=
  rfl

/-- C10: the `full_run` parameter of `run_pipeline` is never read, so the two
settings produce identical results on every input — full versus incremental
download is decided solely by stage 2's per-symbol gap metadata. -/
theorem full_run_has_no_effect (a b : Bool)
    (net1 : Except String (List ExchangeSymbol × List Ticker)) (nowIso : String)
    (exchange : Exchange) (now fuel : Nat) (st : PipelineState) :
    run_pipeline a net1 nowIso exchange now fuel st =
      run_pipeline b net1 nowIso exchange now fuel st :=
  rfl

/-- A validated symbol keeps its ticker name and has an accepted quote
asset: validation rule 1 of FILTER 1. -/
theorem validate_symbol_quote_accepted (ticker_24h : List Ticker) (nowIso : String)
    (so : ExchangeSymbol) (d : SymbolData)
    (h : validate_symbol ticker_24h nowIso so = some d) :
    d.symbol = so.symbol ∧ so.quoteAsset ∈ ACCEPTED_QUOTE_CURRENCIES := by
  unfold validate_symbol at h
  split at h
  · exact absurd h (by simp)
  · split at h
    · split at h
      · split at h
        · exact absurd h (by simp)
        · split at h
          · exact absurd h (by simp)
          · cases h
            exact ⟨rfl, by assumption⟩
      · exact absurd h (by simp)
    · exact absurd h (by simp)

/-- C7: a symbol whose quote asset is outside the accepted set
(USDT, BUSD, USDC) never appears in the symbol list returned by FILTER 1,
whatever its quote volume (it is excluded before ranking). -/
theorem unaccepted_quote_never_in_stage1_output (exchange_info : List ExchangeSymbol)
    (ticker_24h : List Ticker) (nowIso s : String)
    (h : ∀ so ∈ exchange_info, so.symbol = s →
      so.quoteAsset ∉ ACCEPTED_QUOTE_CURRENCIES) :
    s ∉ (filter_1_acquire_symbols exchange_info ticker_24h nowIso).1 := by
  intro hs
  have hs' : s ∈ (((exchange_info.filterMap (validate_symbol ticker_24h nowIso)).mergeSort
      (fun a b => decide (b.volume_24h_usdt ≤ a.volume_24h_usdt))).take
      TOP_N_SYMBOLS).map (·.symbol) := hs
  rw [List.mem_map] at hs'
  obtain ⟨d, hd, hds⟩ := hs'
  have hd2 := List.mem_mergeSort.mp (List.mem_of_mem_take hd)
  rw [List.mem_filterMap] at hd2
  obtain ⟨so, hso, hval⟩ := hd2
  obtain ⟨h1, h2⟩ := validate_symbol_quote_accepted _ _ _ _ hval
  exact h so hso (by rw [← h1, hds]) h2

/-- Witness for C7: an exchange universe with an XYZ-quoted symbol of huge
volume and a USDT-quoted symbol; the XYZ symbol is absent from the output. -/
theorem unaccepted_quote_never_in_stage1_output_witness :
    "AAAXYZ" ∉ (filter_1_acquire_symbols
      [⟨"AAAXYZ", "AAA", "XYZ", "TRADING"⟩, ⟨"BBBUSDT", "BBB", "USDT", "TRADING"⟩]
      [⟨"AAAXYZ", some 5, 1000000⟩, ⟨"BBBUSDT", some 2, 10⟩]
      "2024-01-01T00:00:00").1 :=
  unaccepted_quote_never_in_stage1_output _ _ _ _ (by decide)

/-- The descending-volume comparison FILTER 1 sorts with, on pairwise
distinct volumes, is strict on the sorted output. -/
theorem mergeSort_volume_strict (survivors : List SymbolData)
    (hvol : (survivors.map (·.volume_24h_usdt)).Nodup) :
    (survivors.mergeSort fun a b => decide (b.volume_24h_usdt ≤ a.volume_24h_usdt)).Pairwise
      (fun a b => b.volume_24h_usdt < a.volume_24h_usdt) := by
  have hsort := @List.sorted_mergeSort SymbolData
    (fun a b : SymbolData => decide (b.volume_24h_usdt ≤ a.volume_24h_usdt))
    (fun a b c hab hbc => by
      simp only [decide_eq_true_eq] at hab hbc ⊢
      exact le_trans hbc hab)
    (fun a b => by
      simp only [Bool.or_eq_true, decide_eq_true_eq]
      exact le_total b.volume_24h_usdt a.volume_24h_usdt)
    survivors
  have hperm := List.mergeSort_perm survivors
    fun a b => decide (b.volume_24h_usdt ≤ a.volume_24h_usdt)
  have hnd : ((survivors.mergeSort fun a b =>
      decide (b.volume_24h_usdt ≤ a.volume_24h_usdt)).map (·.volume_24h_usdt)).Nodup :=
    ((hperm.map (·.volume_24h_usdt)).nodup_iff).mpr hvol
  have hne := (List.pairwise_map.mp hnd)
  exact (hsort.and hne).imp fun {a b} hab =>
    lt_of_le_of_ne (of_decide_eq_true hab.1) (Ne.symm hab.2)

/-- C8: when more than `TOP_N_SYMBOLS` symbols survive validation and the
survivors' quote volumes are pairwise distinct, FILTER 1 keeps exactly
`TOP_N_SYMBOLS` of the survivors, ordered by quote volume strictly
descending, and every kept symbol out-ranks every dropped survivor. -/
theorem stage1_top_n_ranking (exchange_info : List ExchangeSymbol)
    (ticker_24h : List Ticker) (nowIso : String)
    (hlen : TOP_N_SYMBOLS <
      (exchange_info.filterMap (validate_symbol ticker_24h nowIso)).length)
    (hvol : ((exchange_info.filterMap (validate_symbol ticker_24h nowIso)).map
      (·.volume_24h_usdt)).Nodup) :
    (filter_1_acquire_symbols exchange_info ticker_24h nowIso).2.symbols.length =
        TOP_N_SYMBOLS ∧
    (∀ x ∈ (filter_1_acquire_symbols exchange_info ticker_24h nowIso).2.symbols,
      x ∈ exchange_info.filterMap (validate_symbol ticker_24h nowIso)) ∧
    (filter_1_acquire_symbols exchange_info ticker_24h nowIso).2.symbols.Pairwise
      (fun a b => b.volume_24h_usdt < a.volume_24h_usdt) ∧
    (∀ y ∈ exchange_info.filterMap (validate_symbol ticker_24h nowIso),
      y ∉ (filter_1_acquire_symbols exchange_info ticker_24h nowIso).2.symbols →
      ∀ x ∈ (filter_1_acquire_symbols exchange_info ticker_24h nowIso).2.symbols,
        y.volume_24h_usdt < x.volume_24h_usdt) := by
  have htop : (filter_1_acquire_symbols exchange_info ticker_24h nowIso).2.symbols =
      ((exchange_info.filterMap (validate_symbol ticker_24h nowIso)).mergeSort
        fun a b => decide (b.volume_24h_usdt ≤ a.volume_24h_usdt)).take TOP_N_SYMBOLS := rfl
  have hperm := List.mergeSort_perm (exchange_info.filterMap (validate_symbol ticker_24h nowIso))
    fun a b => decide (b.volume_24h_usdt ≤ a.volume_24h_usdt)
  have hstrict := mergeSort_volume_strict _ hvol
  rw [htop]
  refine ⟨?_, ?_, ?_, ?_⟩
  · rw [List.length_take, hperm.length_eq]
    exact Nat.min_eq_left (Nat.le_of_lt hlen)
  · intro x hx
    exact hperm.mem_iff.mp (List.mem_of_mem_take hx)
  · exact hstrict.sublist (List.take_sublist _ _)
  · intro y hy hyn x hx
    have hsplit := (List.take_append_drop TOP_N_SYMBOLS
      ((exchange_info.filterMap (validate_symbol ticker_24h nowIso)).mergeSort
        fun a b => decide (b.volume_24h_usdt ≤ a.volume_24h_usdt))).symm
    have hcross := (List.pairwise_append.mp (hsplit ▸ hstrict)).2.2
    have hy2 : y ∈ ((exchange_info.filterMap (validate_symbol ticker_24h nowIso)).mergeSort
        fun a b => decide (b.volume_24h_usdt ≤ a.volume_24h_usdt)) :=
      hperm.mem_iff.mpr hy
    rw [← List.take_append_drop TOP_N_SYMBOLS
      ((exchange_info.filterMap (validate_symbol ticker_24h nowIso)).mergeSort
        fun a b => decide (b.volume_24h_usdt ≤ a.volume_24h_usdt)),
      List.mem_append] at hy2
    rcases hy2 with hy2 | hy2
    · exact absurd hy2 hyn
    · exact hcross x hx y hy2

/-- All 101 synthetic symbols survive validation: more than the kept 100. -/
theorem c8_more_than_top_n :
    TOP_N_SYMBOLS <
      (c8_exchange_info.filterMap (validate_symbol c8_ticker_24h "t")).length := by
  decide

/-- The 101 synthetic survivors carry pairwise distinct quote volumes. -/
theorem c8_distinct_volumes :
    ((c8_exchange_info.filterMap (validate_symbol c8_ticker_24h "t")).map
      (·.volume_24h_usdt)).Nodup := by
  decide

/-- Witness for C8: on the 101-symbol synthetic input, FILTER 1 keeps exactly
`TOP_N_SYMBOLS` symbols. -/
theorem stage1_top_n_ranking_witness :
    (filter_1_acquire_symbols c8_exchange_info c8_ticker_24h "t").2.symbols.length =
      TOP_N_SYMBOLS :=
  (stage1_top_n_ranking c8_exchange_info c8_ticker_24h "t"
    c8_more_than_top_n c8_distinct_volumes).1

/-- C4, counterexample: with three fresh symbols where only the second
symbol's kline request raises, stage 3 writes the logs of symbols 1 and 3 —
but the accumulated error list is empty, not of length one as the claim
states: the download exception is caught inside `_download_symbol_data`
(logged as a warning and turned into `break`), so it never reaches the
stage's per-symbol error handler. -/
theorem stage3_one_failure_counterexample :
    (filter_3_download_data failS2Exchange (3650 * 86400) 1 ["S1", "S2", "S3"]
        (filter_2_check_data_gaps ["S1", "S2", "S3"] fun _ => none)
        fun _ => none).2.length = 0 ∧
    ((filter_3_download_data failS2Exchange (3650 * 86400) 1 ["S1", "S2", "S3"]
        (filter_2_check_data_gaps ["S1", "S2", "S3"] fun _ => none)
        fun _ => none).1 "S1").isSome = true ∧
    ((filter_3_download_data failS2Exchange (3650 * 86400) 1 ["S1", "S2", "S3"]
        (filter_2_check_data_gaps ["S1", "S2", "S3"] fun _ => none)
        fun _ => none).1 "S3").isSome = true ∧
    (filter_3_download_data failS2Exchange (3650 * 86400) 1 ["S1", "S2", "S3"]
        (filter_2_check_data_gaps ["S1", "S2", "S3"] fun _ => none)
        fun _ => none).2.length ≠ 1 := by
  decide

/-- C4, amended: given three symbols with no local data, where only the
second symbol's kline request raises, stage 3 still produces the logs for the
first and third symbols — but its accumulated error list stays empty: the
exception is absorbed inside `_download_symbol_data`, which returns the
records fetched so far; error entries arise only from exceptions outside the
download loop. -/
theorem stage3_one_failure_isolation (exchange : Exchange) (now fuel : Nat) (e : String)
    (h2 : exchange "S2" ((now - 3650 * 86400) * 1000) = .error e)
    (h1 : download_symbol_data exchange "S1" (now - 3650 * 86400) now fuel ≠ [])
    (h3 : download_symbol_data exchange "S3" (now - 3650 * 86400) now fuel ≠ []) :
    (filter_3_download_data exchange now fuel ["S1", "S2", "S3"]
        (filter_2_check_data_gaps ["S1", "S2", "S3"] fun _ => none)
        fun _ => none).2 = [] ∧
    (filter_3_download_data exchange now fuel ["S1", "S2", "S3"]
        (filter_2_check_data_gaps ["S1", "S2", "S3"] fun _ => none)
        fun _ => none).1 "S1" =
      some ((download_symbol_data exchange "S1"
        (now - 3650 * 86400) now fuel).map Line.record) ∧
    (filter_3_download_data exchange now fuel ["S1", "S2", "S3"]
        (filter_2_check_data_gaps ["S1", "S2", "S3"] fun _ => none)
        fun _ => none).1 "S3" =
      some ((download_symbol_data exchange "S3"
        (now - 3650 * 86400) now fuel).map Line.record) := by
  have gm : filter_2_check_data_gaps ["S1", "S2", "S3"] (fun _ => none) =
      [("S1", ⟨none, true, false⟩), ("S2", ⟨none, true, false⟩),
       ("S3", ⟨none, true, false⟩)] := rfl
  have hp1 : filter_3_process_symbol exchange now fuel
      [("S1", ⟨none, true, false⟩), ("S2", ⟨none, true, false⟩),
       ("S3", ⟨none, true, false⟩)] "S1" none =
      .ok (some ((download_symbol_data exchange "S1"
        (now - 3650 * 86400) now fuel).map Line.record)) := by
    have hne : (download_symbol_data exchange "S1"
        (now - 3650 * 86400) now fuel).isEmpty = false :=
      List.isEmpty_eq_false.mpr h1
    simp [filter_3_process_symbol, List.lookup, filter_3_fetch_and_store, hne,
      store_symbol_data]
  have hp2 : filter_3_process_symbol exchange now fuel
      [("S1", ⟨none, true, false⟩), ("S2", ⟨none, true, false⟩),
       ("S3", ⟨none, true, false⟩)] "S2" none = .ok none := by
    have hnil : download_symbol_data exchange "S2" (now - 3650 * 86400) now fuel = [] :=
      downloadLoop_eq_nil_of_error exchange "S2" now fuel (now - 3650 * 86400) e h2
    simp [filter_3_process_symbol, List.lookup, filter_3_fetch_and_store, hnil]
  have hp3 : filter_3_process_symbol exchange now fuel
      [("S1", ⟨none, true, false⟩), ("S2", ⟨none, true, false⟩),
       ("S3", ⟨none, true, false⟩)] "S3" none =
      .ok (some ((download_symbol_data exchange "S3"
        (now - 3650 * 86400) now fuel).map Line.record)) := by
    have hne : (download_symbol_data exchange "S3"
        (now - 3650 * 86400) now fuel).isEmpty = false :=
      List.isEmpty_eq_false.mpr h3
    simp [filter_3_process_symbol, List.lookup, filter_3_fetch_and_store, hne,
      store_symbol_data]
  refine ⟨?_, ?_, ?_⟩ <;>
    simp [filter_3_download_data, gm, hp1, hp2, hp3]

/-- Witness for the amended C4 theorem on the concrete failing exchange. -/
theorem stage3_one_failure_isolation_witness :
    (filter_3_download_data failS2Exchange (3650 * 86400) 1 ["S1", "S2", "S3"]
        (filter_2_check_data_gaps ["S1", "S2", "S3"] fun _ => none)
        fun _ => none).2 = [] ∧
    (filter_3_download_data failS2Exchange (3650 * 86400) 1 ["S1", "S2", "S3"]
        (filter_2_check_data_gaps ["S1", "S2", "S3"] fun _ => none)
        fun _ => none).1 "S1" =
      some ((download_symbol_data failS2Exchange "S1"
        (3650 * 86400 - 3650 * 86400) (3650 * 86400) 1).map Line.record) ∧
    (filter_3_download_data failS2Exchange (3650 * 86400) 1 ["S1", "S2", "S3"]
        (filter_2_check_data_gaps ["S1", "S2", "S3"] fun _ => none)
        fun _ => none).1 "S3" =
      some ((download_symbol_data failS2Exchange "S3"
        (3650 * 86400 - 3650 * 86400) (3650 * 86400) 1).map Line.record) :=
  stage3_one_failure_isolation failS2Exchange (3650 * 86400) 1 "connection error"
    rfl (by decide) (by decide)

/-- Dates of an appended log split into the two parts' dates. -/
theorem logDates_append (l1 l2 : List Line) :
    logDates (l1 ++ l2) = logDates l1 ++ logDates l2 :=
  List.filterMap_append l1 l2 _

/-- Dates of freshly written records are exactly the records' dates. -/
theorem logDates_map_record (rs : List Record) :
    logDates (rs.map Line.record) = rs.map (·.date) := by
  induction rs with
  | nil => rfl
  | cons r rest ih => simpa [logDates, parseLine] using ih

/-- Freshly written records all parse back. -/
theorem allRecords_map_record (rs : List Record) :
    allRecords (rs.map Line.record) = true := by
  simp [allRecords, parseLine, Function.comp]

/-- On a fully parseable log the duplicate scan of `_store_symbol_data`
collects every stored date (the `except: pass` early exit never fires). -/
theorem collectDates_eq_logDates (lines : List Line) (h : allRecords lines = true) :
    collectDates lines = logDates lines := by
  induction lines with
  | nil => rfl
  | cons l rest ih =>
    cases l with
    | record r =>
      rw [allRecords, List.all_cons] at h
      have := (Bool.and_eq_true _ _).mp h
      simpa [collectDates, logDates, parseLine] using ih this.2
    | raw s =>
      rw [allRecords, List.all_cons] at h
      have := (Bool.and_eq_true _ _).mp h
      simp [parseLine] at this

/-- On a fully parseable log ending in record `r`, the last stored date is
`r.date`. -/
theorem logDates_getLast (lines : List Line) (r : Record)
    (hlast : lines.getLast? = some (Line.record r)) :
    (logDates lines).getLast? = some r.date := by
  obtain ⟨ys, rfl⟩ := List.getLast?_eq_some_iff.mp hlast
  rw [logDates_append]
  simp [logDates, parseLine]

/-- Under the daily-kline contract, the records produced by the paging loop
have strictly increasing dates, all at or after the day of the start time
(in epoch seconds). -/
theorem downloadLoop_dates (exchange : Exchange) (symbol : String)
    (hex : WellBehavedExchange exchange) (endTime : Nat) :
    ∀ fuel current,
      ((downloadLoop exchange symbol endTime fuel current).map (·.date)).Chain' (· < ·) ∧
      ∀ r ∈ downloadLoop exchange symbol endTime fuel current, current / 86400 ≤ r.date := by
  intro fuel
  induction fuel with
  | zero => intro current; simp [downloadLoop]
  | succ n ih =>
    intro current
    by_cases hle : current ≤ endTime
    · rcases hE : exchange symbol (current * 1000) with e | page
      · simp [downloadLoop, hle, hE]
      · rcases page with _ | ⟨k, ks⟩
        · simp [downloadLoop, hle, hE]
        · have hpage := hex symbol (current * 1000) (k :: ks) hE
          have hstart : current * 1000 / 1000 = current := Nat.mul_div_cancel _ (by norm_num)
          rw [hstart] at hpage
          have hrec : downloadLoop exchange symbol endTime (n + 1) current =
              ((k :: ks).map (recordOfKline symbol)) ++
                downloadLoop exchange symbol endTime n
                  (((k :: ks).getLast (List.cons_ne_nil k ks)).openTime / 1000 + 86400) := by
            simp [downloadLoop, hle, hE]
          set kl := (k :: ks).getLast (List.cons_ne_nil k ks) with hkl
          have hklmem : kl ∈ k :: ks := List.getLast_mem _
          have ihr := ih (kl.openTime / 1000 + 86400)
          have hnext : (kl.openTime / 1000 + 86400) / 86400 =
              kl.openTime / 1000 / 86400 + 1 := Nat.add_div_right _ (by norm_num)
          have hmapdates : (((k :: ks).map (recordOfKline symbol)).map (·.date)) =
              (k :: ks).map fun q => q.openTime / 1000 / 86400 := by
            simp [List.map_map, recordOfKline, Function.comp]
          constructor
          · rw [hrec, List.map_append, List.chain'_append]
            refine ⟨?_, ihr.1, ?_⟩
            · rw [hmapdates]; exact hpage.1
            · intro x hx y hy
              rw [hmapdates] at hx
              rw [List.getLast?_map] at hx
              have hlast : (k :: ks).getLast? = some kl := by
                rw [List.getLast?_eq_getLast _ (List.cons_ne_nil k ks)]
              rw [hlast] at hx
              simp only [Option.map_some', Option.mem_def, Option.some.injEq] at hx
              subst hx
              have hymem : y ∈ (downloadLoop exchange symbol endTime n
                  (kl.openTime / 1000 + 86400)).map (·.date) :=
                List.mem_of_mem_head? hy
              rw [List.mem_map] at hymem
              obtain ⟨q, hq, rfl⟩ := hymem
              have := ihr.2 q hq
              rw [hnext] at this
              omega
          · intro q hq
            rw [hrec, List.mem_append] at hq
            rcases hq with hq | hq
            · rw [List.mem_map] at hq
              obtain ⟨w, hw, rfl⟩ := hq
              exact hpage.2 w hw
            · have h1 := ihr.2 q hq
              have h2 := hpage.2 kl hklmem
              omega
    · simp [downloadLoop, hle]

/-- Writing a fresh file (store mode 'w' on a missing file) yields a good
log: the freshly downloaded records have strictly increasing dates. -/
theorem fetch_store_fresh_goodLog (exchange : Exchange) (symbol : String)
    (now fuel start : Nat) (hex : WellBehavedExchange exchange) :
    goodLog (filter_3_fetch_and_store exchange now fuel symbol start false none) := by
  unfold filter_3_fetch_and_store
  by_cases hrec : (download_symbol_data exchange symbol start now fuel).isEmpty
  · simp [hrec, goodLog]
  · rw [if_neg (by simp [hrec])]
    refine ⟨allRecords_map_record _, ?_⟩
    rw [store_symbol_data, if_neg (by simp), logDates_map_record]
    exact (downloadLoop_dates exchange symbol hex now fuel start).1

/-- Merging downloaded records into a good log whose last date is below the
day of the fetch start keeps the log good: the appended records keep strictly
increasing dates above everything already stored. -/
theorem fetch_store_merge_goodLog (exchange : Exchange) (symbol : String)
    (now fuel start : Nat) (lines : List Line) (hex : WellBehavedExchange exchange)
    (hall : allRecords lines = true) (hchain : (logDates lines).Chain' (· < ·))
    (hlower : ∀ x ∈ (logDates lines).getLast?, x < start / 86400) :
    goodLog (filter_3_fetch_and_store exchange now fuel symbol start true (some lines)) := by
  unfold filter_3_fetch_and_store
  by_cases hrec : (download_symbol_data exchange symbol start now fuel).isEmpty
  · simpa [hrec, goodLog] using ⟨hall, hchain⟩
  · rw [if_neg (by simp [hrec])]
    rw [store_symbol_data, if_pos (by simp)]
    simp only [Option.getD_some]
    constructor
    · rw [allRecords, List.all_append]
      rw [allRecords] at hall
      have h2 := allRecords_map_record ((download_symbol_data exchange symbol start now
        fuel).filter fun q => q.date ∉ collectDates lines)
      rw [allRecords] at h2
      rw [hall, h2]
      rfl
    · rw [logDates_append, logDates_map_record, List.chain'_append]
      refine ⟨hchain, ?_, ?_⟩
      · have hsub : (((download_symbol_data exchange symbol start now fuel).filter
            fun q => q.date ∉ collectDates lines).map (·.date)).Sublist
            ((download_symbol_data exchange symbol start now fuel).map (·.date)) :=
          (List.filter_sublist _).map _
        exact ((downloadLoop_dates exchange symbol hex now fuel start).1).sublist hsub
      · intro x hx y hy
        have hxlt := hlower x hx
        have hymem := List.mem_of_mem_head? hy
        rw [List.mem_map] at hymem
        obtain ⟨q, hq, rfl⟩ := hymem
        have hq2 : q ∈ download_symbol_data exchange symbol start now fuel :=
          List.mem_of_mem_filter hq
        have := (downloadLoop_dates exchange symbol hex now fuel start).2 q hq2
        omega

/-- One pipeline run keeps a per-symbol log good: gap detection computes the
start day just past the last stored date (or a full-history start for a fresh
file), and the merge appends only strictly newer dates. -/
theorem runSymbolOnce_goodLog (exchange : Exchange) (symbol : String) (now fuel : Nat)
    (hex : WellBehavedExchange exchange) (content : Option (List Line))
    (h : goodLog content) : goodLog (runSymbolOnce exchange symbol now fuel content) := by
  rcases content with _ | lines
  · have hstep : runSymbolOnce exchange symbol now fuel none =
        filter_3_fetch_and_store exchange now fuel symbol (now - 3650 * 86400)
          false none := by
      simp [runSymbolOnce, filter_2_check_symbol, filter_3_process_symbol]
    rw [hstep]
    exact fetch_store_fresh_goodLog exchange symbol now fuel (now - 3650 * 86400) hex
  · obtain ⟨hall, hchain⟩ := h
    rcases hlast : lines.getLast? with _ | l
    · have hnil : lines = [] := List.getLast?_eq_none_iff.mp hlast
      subst hnil
      have hstep : runSymbolOnce exchange symbol now fuel (some []) =
          filter_3_fetch_and_store exchange now fuel symbol (now - 3650 * 86400)
            true (some []) := by
        simp [runSymbolOnce, filter_2_check_symbol, filter_3_process_symbol]
      rw [hstep]
      exact fetch_store_merge_goodLog exchange symbol now fuel (now - 3650 * 86400) []
        hex rfl (by simp [logDates]) (by simp [logDates])
    · cases l with
      | raw s =>
        have hmem := List.mem_of_getLast?_eq_some hlast
        rw [allRecords, List.all_eq_true] at hall
        have := hall _ hmem
        simp [parseLine] at this
      | record r =>
        have hstep : runSymbolOnce exchange symbol now fuel (some lines) =
            filter_3_fetch_and_store exchange now fuel symbol ((r.date + 1) * 86400)
              true (some lines) := by
          simp [runSymbolOnce, filter_2_check_symbol, hlast, parseLine,
            filter_3_process_symbol]
        rw [hstep]
        refine fetch_store_merge_goodLog exchange symbol now fuel ((r.date + 1) * 86400)
          lines hex hall hchain ?_
        intro x hx
        rw [logDates_getLast lines r hlast] at hx
        simp only [Option.mem_def, Option.some.injEq] at hx
        subst hx
        have : (r.date + 1) * 86400 / 86400 = r.date + 1 :=
          Nat.mul_div_cancel _ (by norm_num)
        omega

/-- Any number of pipeline runs started from a good log leaves a good log,
provided every run's exchange honors the daily-kline contract. -/
theorem runSymbol_goodLog (symbol : String) (envs : List RunEnv)
    (hex : ∀ e ∈ envs, WellBehavedExchange e.exchange)
    (content : Option (List Line)) (h : goodLog content) :
    goodLog (runSymbol symbol content envs) := by
  induction envs generalizing content with
  | nil => exact h
  | cons e es ih =>
    exact ih (fun x hx => hex x (List.mem_cons_of_mem e hx)) _
      (runSymbolOnce_goodLog e.exchange symbol e.now e.fuel
        (hex e (List.mem_cons_self e es)) content h)

/-- C1: starting from no local file, after any number of pipeline runs — each
applying gap detection and then download-and-merge against an exchange
honoring the daily-kline contract — the per-symbol log contains no duplicate
dates. -/
theorem pipeline_log_dates_nodup (symbol : String) (envs : List RunEnv)
    (hex : ∀ e ∈ envs, WellBehavedExchange e.exchange) (lines : List Line)
    (hrun : runSymbol symbol none envs = some lines) :
    (logDates lines).Nodup := by
  have hg := runSymbol_goodLog symbol envs hex none trivial
  rw [hrun] at hg
  exact (List.chain'_iff_pairwise.mp hg.2).imp Nat.ne_of_lt

/-- C2: starting from no local file, after any number of pipeline runs (in
particular after the last run's merge) the dates in the per-symbol log are
non-decreasing from the first line to the last. -/
theorem pipeline_log_dates_monotone (symbol : String) (envs : List RunEnv)
    (hex : ∀ e ∈ envs, WellBehavedExchange e.exchange) (lines : List Line)
    (hrun : runSymbol symbol none envs = some lines) :
    (logDates lines).Chain' (· ≤ ·) := by
  have hg := runSymbol_goodLog symbol envs hex none trivial
  rw [hrun] at hg
  exact hg.2.imp fun a b hab => le_of_lt hab

/-- The one-candle exchange honors the daily-kline contract. -/
theorem oneCandleExchange_wellBehaved : WellBehavedExchange oneCandleExchange := by
  intro symbol t page hpage
  unfold oneCandleExchange at hpage
  by_cases ht : t = 0
  · rw [if_pos ht] at hpage
    cases hpage
    subst ht
    constructor
    · simp
    · intro k hk
      rw [List.mem_singleton] at hk
      subst hk
      simp
  · rw [if_neg ht] at hpage
    cases hpage
    simp

/-- Witness for C1: one run against the one-candle exchange yields a
one-record log with (trivially) duplicate-free dates. -/
theorem pipeline_log_dates_nodup_witness :
    (logDates [Line.record ⟨"BTCUSDT", 0, 0, 1, 1, 1, 1, 2, 3⟩]).Nodup :=
  pipeline_log_dates_nodup "BTCUSDT" [⟨oneCandleExchange, 3650 * 86400, 1⟩]
    (fun e he => by
      rw [List.mem_singleton] at he
      rw [he]
      exact oneCandleExchange_wellBehaved)
    [Line.record ⟨"BTCUSDT", 0, 0, 1, 1, 1, 1, 2, 3⟩] (by decide)

/-- Witness for C2: one run against the one-candle exchange yields a
one-record log with (trivially) non-decreasing dates. -/
theorem pipeline_log_dates_monotone_witness :
    (logDates [Line.record ⟨"BTCUSDT", 0, 0, 1, 1, 1, 1, 2, 3⟩]).Chain' (· ≤ ·) :=
  pipeline_log_dates_monotone "BTCUSDT" [⟨oneCandleExchange, 3650 * 86400, 1⟩]
    (fun e he => by
      rw [List.mem_singleton] at he
      rw [he]
      exact oneCandleExchange_wellBehaved)
    [Line.record ⟨"BTCUSDT", 0, 0, 1, 1, 1, 1, 2, 3⟩] (by decide)

end Pipeline
